import Mathlib

/-!
Verification of the YouTube transcript pipeline (src/app/actions.ts and
src/lib/youtube-utils.ts) against its natural-language specification.

The TypeScript source is shallowly embedded below.  Pure functions become
Lean functions over the same data; the module-level mutable session cache
becomes an explicit state-transition function; the network effects of the
top-level action become an explicit environment argument describing the
outcome of each attempt.  Millisecond timestamps are embedded as Nat: the
only arithmetic on them is addition and the comparison
`startMs - lastEndMs > 5000`, and JS subtraction yielding a negative
number fails that comparison exactly as truncated Nat subtraction does.
-/

/-- Strip a literal from the front of a character list, returning the
remainder on success. -/
def stripLit : List Char → List Char → Option (List Char)
  | [], s => some s
  | _ :: _, [] => none
  | l :: lit, c :: s => if c = l then stripLit lit s else none

/-- String.prototype.trim: drop whitespace from both ends.  Written on
the character list so that it evaluates by kernel reduction. -/
def jsTrim (s : String) : String :=
  String.mk (((s.data.dropWhile Char.isWhitespace).reverse.dropWhile Char.isWhitespace).reverse)

/-- String.prototype.startsWith. -/
def strStartsWith (s pat : String) : Bool :=
  (stripLit pat.data s.data).isSome

/-- Array.prototype.join with a separator string. -/
def joinSep (sep : String) : List String → String
  | [] => ""
  | [a] => a
  | a :: rest => a ++ sep ++ joinSep sep rest

/-- One decoded caption unit: text plus start offset and duration in
milliseconds (src/app/actions.ts lines 77-79, 110-114). -/
structure CaptionSegment where
  text : String
  startMs : Nat
  durationMs : Nat
deriving DecidableEq, Repr

/-- True when the text contains one of the sentence-ending marks 。！？
(the regex test on line 152 of src/app/actions.ts). -/
def hasPunct (s : String) : Bool :=
  s.data.any fun c => c = '。' || c = '！' || c = '？'

/-- Formatter loop state: committed lines, the growing current line, and
the end time of the most recently consumed segment (lines 142-144). -/
structure FmtState where
  lines : List String
  currentLine : String
  lastEndMs : Nat
deriving DecidableEq, Repr

/-- One iteration of the for-loop of formatTranscript
(src/app/actions.ts lines 147-176).  The punctuation branch appends the
segment text to the current line with no separator and commits; the gap
branch commits the buffer when the start time exceeds the previous end
time by more than 5000 ms; the append step inserts a single space only
when the buffer is non-empty. -/
def formatStep (st : FmtState) (seg : CaptionSegment) : FmtState :=
  if hasPunct seg.text then
    { lines := st.lines ++ [jsTrim (st.currentLine ++ seg.text)]
      currentLine := ""
      lastEndMs := seg.startMs + seg.durationMs }
  else
    let st1 :=
      if 0 < st.lastEndMs ∧ 5000 < seg.startMs - st.lastEndMs then
        if jsTrim st.currentLine ≠ "" then
          { st with lines := st.lines ++ [jsTrim st.currentLine], currentLine := "" }
        else st
      else st
    let newLine := if st1.currentLine ≠ "" then st1.currentLine ++ " " ++ seg.text else seg.text
    { lines := st1.lines, currentLine := newLine, lastEndMs := seg.startMs + seg.durationMs }

/-- formatTranscript (src/app/actions.ts lines 137-184): fold the step
over the segments, commit a non-empty final buffer, join the committed
lines with a blank line between paragraphs. -/
def formatTranscript (segments : List CaptionSegment) : String :=
  if segments = [] then ""
  else
    let st := segments.foldl formatStep { lines := [], currentLine := "", lastEndMs := 0 }
    let finalLines := if jsTrim st.currentLine ≠ "" then st.lines ++ [jsTrim st.currentLine] else st.lines
    joinSep "\n\n" finalLines

/-- The display-name record of a caption track (src/app/actions.ts
line 24). -/
structure TrackName where
  text : String
  rtl : Bool
deriving DecidableEq, Repr

/-- A caption track as typed on lines 22-29 of src/app/actions.ts. -/
structure CaptionTrack where
  base_url : String
  name : TrackName
  vss_id : String
  language_code : String
  kind : Option String
  is_translatable : Bool
deriving DecidableEq, Repr

/-- The manual-track test of line 261: same language code and a vss_id
starting with a dot. -/
def isManualFor (lang : String) (t : CaptionTrack) : Bool :=
  t.language_code = lang && strStartsWith t.vss_id "."

/-- The automatic-track test of lines 267-269: same language code and a
vss_id starting with the auto marker, or kind equal to asr. -/
def isAutoFor (lang : String) (t : CaptionTrack) : Bool :=
  t.language_code = lang && (strStartsWith t.vss_id "a." || t.kind = some "asr")

/-- selectBestCaptionTrack (src/app/actions.ts lines 253-276): walk the
preferred languages in order, for each looking first for a manual track
and then for an automatic one; fall back to the first track of the list,
or none when the list is empty. -/
def selectBestCaptionTrack (tracks : List CaptionTrack) : List String → Option CaptionTrack
  | [] => tracks.head?
  | lang :: rest =>
    match tracks.find? (isManualFor lang) with
    | some t => some t
    | none =>
      match tracks.find? (isAutoFor lang) with
      | some t => some t
      | none => selectBestCaptionTrack tracks rest

/-- One sub-segment of a raw caption event (src/app/actions.ts line 73);
the recognition-confidence field is never read and is omitted. -/
structure SubSeg where
  utf8 : Option String
deriving DecidableEq, Repr

/-- One raw caption event as typed on lines 70-74 of src/app/actions.ts. -/
structure TranscriptEvent where
  tStartMs : Option Nat
  dDurationMs : Option Nat
  segs : Option (List SubSeg)
deriving DecidableEq, Repr

/-- The per-event text of lines 118-121: trim every sub-segment text
(missing text read as empty), drop the empties, join with no separator. -/
def eventText (segs : List SubSeg) : String :=
  String.join (((segs.map fun s => jsTrim (s.utf8.getD "")).filter fun t => t ≠ ""))

/-- The body of the extraction loop of lines 116-131 of
src/app/actions.ts: an event with a segs array and a present start time
pushes one segment when its joined text is non-empty; duration defaults
to 0. -/
def pushEvent (acc : List CaptionSegment) (event : TranscriptEvent) : List CaptionSegment :=
  match event.segs, event.tStartMs with
  | some segs, some start =>
    let text := eventText segs
    if text = "" then acc
    else acc ++ [{ text := text, startMs := start, durationMs := event.dDurationMs.getD 0 }]
  | _, _ => acc

/-- The extraction loop of lines 116-131 of src/app/actions.ts. -/
def extractSegments (events : List TranscriptEvent) : List CaptionSegment :=
  events.foldl pushEvent []

/-- The per-event contribution rule exactly as the specification words it
(one optional segment per event), used to state the claim about
extractSegments. -/
def eventToSegment (e : TranscriptEvent) : Option CaptionSegment :=
  match e.segs, e.tStartMs with
  | some segs, some start =>
    let t := eventText segs
    if t = "" then none
    else some { text := t, startMs := start, durationMs := e.dDurationMs.getD 0 }
  | _, _ => none

/-- The character class of the video-id capture groups in
src/lib/youtube-utils.ts lines 10-13. -/
def isIdChar (c : Char) : Bool :=
  c.isAlpha || c.isDigit || c = '_' || c = '-'

/-- At one scan position: the literal part of a pattern must match here
and be followed by eleven id characters, which form the capture. -/
def checkAt (lit : List Char) (s : List Char) : Option String :=
  (stripLit lit s).bind fun rest =>
    let cand := rest.take 11
    if cand.length = 11 && cand.all isIdChar then some (String.mk cand) else none

/-- Leftmost regex search: try every start position from the left, as
the unanchored regex matching of String.prototype.match does. -/
def scanFor (lit : List Char) : List Char → Option String
  | [] => checkAt lit []
  | c :: rest =>
    match checkAt lit (c :: rest) with
    | some r => some r
    | none => scanFor lit rest

/-- The literal core of the first pattern of extractVideoId (line 10). -/
def watchLit : List Char := "youtube.com/watch?v=".data

/-- The literal core of the second pattern (line 11). -/
def shortLit : List Char := "youtu.be/".data

/-- The literal core of the third pattern (line 12). -/
def embedLit : List Char := "youtube.com/embed/".data

/-- The literal core of the fourth pattern (line 13). -/
def vLit : List Char := "youtube.com/v/".data

/-- extractVideoId (src/lib/youtube-utils.ts lines 4-24): empty input is
rejected, then the four patterns are tried in order, each scanned
left to right across the whole string. -/
def extractVideoId (url : String) : Option String :=
  if url = "" then none
  else
    match scanFor watchLit url.data with
    | some r => some r
    | none =>
      match scanFor shortLit url.data with
      | some r => some r
      | none =>
        match scanFor embedLit url.data with
        | some r => some r
        | none => scanFor vLit url.data

/-- Scheme characters accepted by the URL constructor after the leading
letter. -/
def isSchemeChar (c : Char) : Bool :=
  c.isAlpha || c.isDigit || c = '+' || c = '-' || c = '.'

/-- Characters ending the authority component of a hierarchical URL. -/
def isAuthorityEnd (c : Char) : Bool :=
  c = '/' || c = '?' || c = '#'

/-- Modelled hostname extraction of the WHATWG URL constructor used on
line 35 of src/lib/youtube-utils.ts, for hierarchical scheme://authority
URLs: the scheme is a letter followed by scheme characters and a colon,
two slashes introduce the authority, the host is the part of the
authority after the last at sign and before any colon, lowercased.
Inputs outside this shape (no scheme, no slashes, empty host — where the
constructor throws, or non-special schemes whose host is empty) map to
none, and the caller treats none as invalid. -/
def urlHostname (url : String) : Option String :=
  let (scheme, rest) := url.data.span (fun c => c ≠ ':')
  match scheme, rest with
  | sc :: scs, ':' :: '/' :: '/' :: tail =>
    if sc.isAlpha && scs.all isSchemeChar then
      let authority := tail.takeWhile (fun c => !isAuthorityEnd c)
      let hostPort := (authority.reverse.takeWhile (fun c => c ≠ '@')).reverse
      let host := hostPort.takeWhile (fun c => c ≠ ':')
      if host = [] then none else some (String.mk (host.map Char.toLower))
    else none
  | _, _ => none

/-- The host allow-list of line 36 of src/lib/youtube-utils.ts. -/
def validHosts : List String :=
  ["www.youtube.com", "youtube.com", "youtu.be", "m.youtube.com"]

/-- isValidYouTubeUrl (src/lib/youtube-utils.ts lines 29-46): empty input
and unparseable URLs are invalid; otherwise the hostname must be on the
allow-list and extractVideoId must succeed. -/
def isValidYouTubeUrl (url : String) : Bool :=
  if url = "" then false
  else
    match urlHostname url with
    | none => false
    | some host => validHosts.contains host && (extractVideoId url).isSome

/-- Video metadata as assembled on lines 322-330 of src/app/actions.ts.
The field values come from the external collaborator, so the environment
below supplies the assembled record directly. -/
structure VideoMetadata where
  title : String
  channelName : String
  description : String
  thumbnail : String
deriving DecidableEq, Repr

/-- The result record of lines 13-19 of src/app/actions.ts; optional
fields that a return statement omits are none. -/
structure TranscriptResult where
  success : Bool
  transcript : Option String
  language : Option String
  metadata : Option VideoMetadata
  error : Option String
deriving DecidableEq, Repr

/-- A thrown JS Error as inspected by the classification code on
lines 431-480: its name and its message. -/
structure JsError where
  name : String
  message : String
deriving DecidableEq, Repr

/-- Substring test from one position onward. -/
def includesFrom (pat : List Char) : List Char → Bool
  | [] => (stripLit pat []).isSome
  | c :: rest => (stripLit pat (c :: rest)).isSome || includesFrom pat rest

/-- The String.prototype.includes test used by the error classifier. -/
def strIncludes (s pat : String) : Bool :=
  includesFrom pat.data s.data

/-- Error message of line 282 of src/app/actions.ts. -/
def inputErrMsg : String := "URLを入力してください"

/-- Error message of line 289. -/
def invalidUrlMsg : String := "有効なYouTube URLを入力してください"

/-- Error message of line 297. -/
def noVideoIdMsg : String := "動画IDを取得できませんでした"

/-- Error message of lines 347 and 381. -/
def noCaptionsMsg : String := "この動画には字幕がありません"

/-- Error message of line 396. -/
def emptySegmentsMsg : String := "字幕テキストの抽出に失敗しました"

/-- Error message of line 442. -/
def timeoutMsg : String :=
  "タイムアウトが発生しました。動画が長い場合、時間がかかることがあります。しばらくしてからお試しください。"

/-- Error message of line 455. -/
def networkMsg : String :=
  "ネットワークエラーが発生しました。インターネット接続を確認してください。"

/-- Error message of line 467. -/
def captionAbsentMsg : String :=
  "この動画には字幕がありません。字幕が有効な動画を試してください。"

/-- Error message of line 478. -/
def unavailableMsg : String := "この動画は利用できません"

/-- The language preference list of line 359. -/
def preferredLanguages : List String := ["ja", "en"]

/-- A failure result carrying only an error message. -/
def bareFailure (msg : String) : TranscriptResult :=
  { success := false, transcript := none, language := none, metadata := none, error := some msg }

/-- The outcome of the network interactions of one attempt of the retry
loop (lines 305-425 of src/app/actions.ts): either session creation or
getBasicInfo threw, or the video resolved, yielding the assembled
metadata, the caption-track list of the info object (none models a
missing captions object or caption_tracks field), and the outcome of
fetching the selected track transcript. -/
inductive AttemptEnv where
  | thrown (e : JsError)
  | resolved (md : VideoMetadata) (captions : Option (List CaptionTrack))
      (fetch : Except JsError (List CaptionSegment))
deriving Repr

/-- The body of one attempt of the try block (lines 306-412): ok is a
return statement, error is a thrown value caught on line 413.  The
translate argument stands for translateLanguageName (lines 187-250),
whose value no claim constrains; every theorem below holds for all of
its instantiations. -/
def resolvedBody (translate : String → String) (md : VideoMetadata)
    (captions : Option (List CaptionTrack))
    (fetch : Except JsError (List CaptionSegment)) : Except JsError TranscriptResult :=
  match captions with
    | none => .ok { bareFailure noCaptionsMsg with metadata := some md }
    | some tracks =>
      if tracks.length = 0 then .ok { bareFailure noCaptionsMsg with metadata := some md }
      else
        match selectBestCaptionTrack tracks preferredLanguages with
        | none => .ok { bareFailure noCaptionsMsg with metadata := some md }
        | some track =>
          if track.base_url = "" then .ok { bareFailure noCaptionsMsg with metadata := some md }
          else
            match fetch with
            | .error e => .error e
            | .ok segments =>
              if segments.length = 0 then
                .ok { bareFailure emptySegmentsMsg with metadata := some md }
              else
                .ok { success := true
                      transcript := some (formatTranscript segments)
                      language := some (translate track.name.text)
                      metadata := some md
                      error := none }

/-- One attempt of the try block: dispatch on the environment. -/
def attemptBody (translate : String → String) (env : AttemptEnv) :
    Except JsError TranscriptResult :=
  match env with
  | .thrown e => .error e
  | .resolved md captions fetch => resolvedBody translate md captions fetch

/-- The error classification of lines 431-486, reached when every
attempt has thrown; the checks run in source order.  The fallback of
lines 488-492 for a non-Error thrown value cannot arise here because the
environment always supplies Error records. -/
def classifyError (e : JsError) : TranscriptResult :=
  if strIncludes e.message "timeout" || strIncludes e.message "Timeout" ||
     strIncludes e.message "TIMEOUT" || e.name = "TimeoutError" then
    bareFailure timeoutMsg
  else if strIncludes e.message "fetch" || strIncludes e.message "network" ||
          strIncludes e.message "ECONNREFUSED" || strIncludes e.message "ENOTFOUND" then
    bareFailure networkMsg
  else if strIncludes e.message "Transcript" || strIncludes e.message "transcript" ||
          strIncludes e.message "caption" then
    bareFailure captionAbsentMsg
  else if strIncludes e.message "unavailable" || strIncludes e.message "Video" ||
          strIncludes e.message "not found" then
    bareFailure unavailableMsg
  else
    bareFailure ("エラーが発生しました: " ++ e.message)

/-- The retry loop of lines 305-425: run the attempts in order, return
the first non-thrown result, remember the last thrown error, and after
the last attempt classify it.  The loop always runs at least one
attempt, so the default error of line 428 is never consulted with its
none argument left in place. -/
def runAttempts (translate : String → String) :
    List AttemptEnv → Option JsError → TranscriptResult
  | [], lastError => classifyError (lastError.getD { name := "Error", message := "Unknown error" })
  | env :: rest, _lastError =>
    match attemptBody translate env with
    | .ok r => r
    | .error e => runAttempts translate rest (some e)

/-- getTranscript (src/app/actions.ts lines 278-493): input checks, then
three attempts (maxRetries = 2 on line 302), then classification.  The
environment function gives the network outcome of each attempt in
order. -/
def getTranscript (translate : String → String) (url : String)
    (envs : Nat → AttemptEnv) : TranscriptResult :=
  if jsTrim url = "" then bareFailure inputErrMsg
  else if !isValidYouTubeUrl url then bareFailure invalidUrlMsg
  else
    match extractVideoId url with
    | none => bareFailure noVideoIdMsg
    | some _ => runAttempts translate [envs 0, envs 1, envs 2] none

/-- The module-level session cache of lines 32-33 of src/app/actions.ts:
the created instance, the in-flight creation promise, and a count of how
many times Innertube.create was started (instances and promises are
named by numbers). -/
structure InnertubeState where
  inst : Option Nat
  initP : Option Nat
  createCount : Nat
deriving DecidableEq, Repr

/-- What a call to getInnertube hands back to its caller: an already
created instance, or a promise to await. -/
inductive InnertubeCallResult where
  | ready (i : Nat)
  | awaitP (p : Nat)
deriving DecidableEq, Repr

/-- The synchronous section of getInnertube (lines 35-67 of
src/app/actions.ts), which runs atomically on the JS event loop: return
the cached instance if present, else the in-flight promise if present,
else start one creation (the async function body up to its first await
runs before control returns) and cache its promise.  fresh names the new
promise. -/
def getInnertubeCall (st : InnertubeState) (fresh : Nat) :
    InnertubeState × InnertubeCallResult :=
  match st.inst with
  | some i => (st, .ready i)
  | none =>
    match st.initP with
    | some p => (st, .awaitP p)
    | none =>
      ({ inst := none, initP := some fresh, createCount := st.createCount + 1 },
       .awaitP fresh)

/-- Completion of a successful creation (line 56): the instance is
cached; the promise field is left as is, later calls return the instance
first. -/
def initSucceed (st : InnertubeState) (i : Nat) : InnertubeState :=
  { st with inst := some i }

/-- Completion of a failed creation (line 61): the cached promise is
cleared so that a later call retries. -/
def initFail (st : InnertubeState) : InnertubeState :=
  { st with initP := none }

/-! ## Helper lemmas -/

theorem pushEvent_eq_append (acc : List CaptionSegment) (e : TranscriptEvent) :
    pushEvent acc e = acc ++ (eventToSegment e).toList := by
  unfold pushEvent eventToSegment
  cases hs : e.segs with
  | none => simp
  | some segs =>
    cases ht : e.tStartMs with
    | none => simp
    | some start =>
      by_cases h : eventText segs = "" <;> simp [h]

theorem foldl_pushEvent (events : List TranscriptEvent) :
    ∀ acc : List CaptionSegment,
      events.foldl pushEvent acc = acc ++ events.filterMap eventToSegment := by
  induction events with
  | nil => intro acc; simp
  | cons e rest ih =>
    intro acc
    rw [List.foldl_cons, ih, pushEvent_eq_append, List.filterMap_cons]
    cases eventToSegment e <;> simp

/-! ## Claims about the caption parser -/

/-- C5: the segment list produced by the caption parser contains
exactly, in input order, one segment per event that has a start-time
field and sub-segments whose trimmed texts concatenate to a non-empty
string; that segment takes the concatenated text, the event start time,
and the duration or 0 when absent; all other events contribute no
segment. -/
theorem C5_parser_per_event (events : List TranscriptEvent) :
    extractSegments events = events.filterMap eventToSegment := by
  rw [extractSegments, foldl_pushEvent]
  simp

/-! ## Claims about the formatter -/

/-- C1 counterexample: on the spec example the punctuated second segment
is appended with no separator, so the single committed line is not the
space-joined text the claim states. -/
theorem C1_counterexample :
    formatTranscript
        [{ text := "Hello", startMs := 0, durationMs := 1000 },
         { text := "world。", startMs := 1200, durationMs := 800 }] ≠ "Hello world。" := by
  decide

/-- C1 (amended): the input produces exactly one paragraph, whose text
is the two segment texts concatenated directly, with no space, because
the punctuation branch appends without a separator. -/
theorem C1_single_line_concat :
    formatTranscript
        [{ text := "Hello", startMs := 0, durationMs := 1000 },
         { text := "world。", startMs := 1200, durationMs := 800 }] = "Helloworld。" := by
  decide

theorem formatStep_gap (st : FmtState) (seg : CaptionSegment)
    (h1 : hasPunct seg.text = false) (h2 : 0 < st.lastEndMs)
    (h3 : st.lastEndMs + 5000 < seg.startMs) (h4 : jsTrim st.currentLine ≠ "") :
    formatStep st seg =
      { lines := st.lines ++ [jsTrim st.currentLine]
        currentLine := seg.text
        lastEndMs := seg.startMs + seg.durationMs } := by
  unfold formatStep
  rw [if_neg (by simp [h1]), if_pos ⟨h2, by omega⟩, if_pos h4]
  simp

theorem formatStep_start (seg : CaptionSegment) (h1 : hasPunct seg.text = false) :
    formatStep { lines := [], currentLine := "", lastEndMs := 0 } seg =
      { lines := [], currentLine := seg.text, lastEndMs := seg.startMs + seg.durationMs } := by
  unfold formatStep
  rw [if_neg (by simp [h1]), if_neg (by simp)]
  simp

/-- C6: a punctuation-free segment whose start time exceeds a positive
last end time by more than 5000 ms commits a non-empty buffer before its
own text starts the new buffer; consequently two punctuation-free
segments separated by such a gap format as two paragraphs joined by a
double newline. -/
theorem C6_gap_break :
    (∀ (st : FmtState) (seg : CaptionSegment),
      hasPunct seg.text = false → 0 < st.lastEndMs →
      st.lastEndMs + 5000 < seg.startMs → jsTrim st.currentLine ≠ "" →
      formatStep st seg =
        { lines := st.lines ++ [jsTrim st.currentLine]
          currentLine := seg.text
          lastEndMs := seg.startMs + seg.durationMs })
    ∧ (∀ s1 s2 : CaptionSegment,
      hasPunct s1.text = false → hasPunct s2.text = false →
      jsTrim s1.text ≠ "" → jsTrim s2.text ≠ "" →
      0 < s1.startMs + s1.durationMs →
      s1.startMs + s1.durationMs + 5000 < s2.startMs →
      formatTranscript [s1, s2] = jsTrim s1.text ++ "\n\n" ++ jsTrim s2.text) := by
  refine ⟨formatStep_gap, ?_⟩
  intro s1 s2 hp1 hp2 ht1 ht2 hpos hgap
  unfold formatTranscript
  rw [if_neg (by simp)]
  simp only [List.foldl_cons, List.foldl_nil]
  rw [formatStep_start s1 hp1, formatStep_gap _ s2 hp2 hpos hgap ht1]
  simp only
  rw [if_pos ht2]
  simp [joinSep]

/-- C6 witness: the step theorem applied to a concrete state and
segment with a 6-second gap. -/
theorem C6_witness :
    formatStep { lines := [], currentLine := "abc", lastEndMs := 1000 }
        { text := "def", startMs := 7001, durationMs := 500 } =
      { lines := ["abc"], currentLine := "def", lastEndMs := 7501 } :=
  C6_gap_break.1 _ _ (by decide) (by decide) (by decide) (by decide)

/-! ## Claims about the caption track selector -/

/-- A manually authored English track, for the concrete selector
scenarios. -/
def enManualTrack : CaptionTrack :=
  { base_url := "https://captions.example/en"
    name := { text := "English", rtl := false }
    vss_id := ".en"
    language_code := "en"
    kind := none
    is_translatable := true }

/-- An automatically generated Japanese track, for the concrete selector
scenarios. -/
def jaAutoTrack : CaptionTrack :=
  { base_url := "https://captions.example/ja"
    name := { text := "Japanese (auto-generated)", rtl := false }
    vss_id := "a.ja"
    language_code := "ja"
    kind := some "asr"
    is_translatable := true }

/-- A manually authored French track, for the fallback scenario. -/
def frManualTrack : CaptionTrack :=
  { base_url := "https://captions.example/fr"
    name := { text := "French", rtl := false }
    vss_id := ".fr"
    language_code := "fr"
    kind := none
    is_translatable := true }

/-- C3: for the first preferred language with any matching track the
selector returns the first manual track of that language when one
exists and otherwise the first automatic track of that language, never
reaching later preferred languages; in particular on tracks
[en manual, ja auto] with preference [ja, en] it returns the ja auto
track. -/
theorem C3_language_priority :
    (∀ (tracks : List CaptionTrack) (pre post : List String) (lang : String),
      (∀ l ∈ pre, tracks.find? (isManualFor l) = none ∧ tracks.find? (isAutoFor l) = none) →
      ((tracks.find? (isManualFor lang)).isSome ∨ (tracks.find? (isAutoFor lang)).isSome) →
      selectBestCaptionTrack tracks (pre ++ lang :: post) =
        ((tracks.find? (isManualFor lang)).orElse fun _ => tracks.find? (isAutoFor lang)))
    ∧ selectBestCaptionTrack [enManualTrack, jaAutoTrack] ["ja", "en"] = some jaAutoTrack := by
  constructor
  · intro tracks pre post lang hpre hmatch
    induction pre with
    | nil =>
      rw [List.nil_append]
      show (match tracks.find? (isManualFor lang) with
        | some t => some t
        | none =>
          match tracks.find? (isAutoFor lang) with
          | some t => some t
          | none => selectBestCaptionTrack tracks post) = _
      cases hm : tracks.find? (isManualFor lang) with
      | some t => simp [Option.orElse]
      | none =>
        cases ha : tracks.find? (isAutoFor lang) with
        | some t => simp [Option.orElse]
        | none => rw [hm, ha] at hmatch; simp at hmatch
    | cons l ls ih =>
      obtain ⟨h1, h2⟩ := hpre l (by simp)
      rw [List.cons_append]
      show (match tracks.find? (isManualFor l) with
        | some t => some t
        | none =>
          match tracks.find? (isAutoFor l) with
          | some t => some t
          | none => selectBestCaptionTrack tracks (ls ++ lang :: post)) = _
      rw [h1, h2]
      exact ih fun l' hl' => hpre l' (by simp [hl'])
  · decide

/-- C3 witness: the general statement applied to the concrete
two-track scenario of the specification. -/
theorem C3_witness :
    selectBestCaptionTrack [enManualTrack, jaAutoTrack] (([] : List String) ++ "ja" :: ["en"]) =
      (([enManualTrack, jaAutoTrack].find? (isManualFor "ja")).orElse
        fun _ => [enManualTrack, jaAutoTrack].find? (isAutoFor "ja")) :=
  C3_language_priority.1 [enManualTrack, jaAutoTrack] [] ["en"] "ja"
    (by decide) (by decide)

/-- C7: when no preferred language has a manual or automatic match the
selector returns the first input track, and it returns none exactly when
the track list is empty. -/
theorem C7_fallback_first :
    (∀ (tracks : List CaptionTrack) (prefs : List String),
      (∀ l ∈ prefs, tracks.find? (isManualFor l) = none ∧ tracks.find? (isAutoFor l) = none) →
      selectBestCaptionTrack tracks prefs = tracks.head?)
    ∧ (∀ (tracks : List CaptionTrack) (prefs : List String),
      selectBestCaptionTrack tracks prefs = none ↔ tracks = []) := by
  constructor
  · intro tracks prefs h
    induction prefs with
    | nil => rfl
    | cons l ls ih =>
      obtain ⟨h1, h2⟩ := h l (by simp)
      show (match tracks.find? (isManualFor l) with
        | some t => some t
        | none =>
          match tracks.find? (isAutoFor l) with
          | some t => some t
          | none => selectBestCaptionTrack tracks ls) = _
      rw [h1, h2]
      exact ih fun l' hl' => h l' (by simp [hl'])
  · intro tracks prefs
    induction prefs with
    | nil =>
      show tracks.head? = none ↔ tracks = []
      exact List.head?_eq_none_iff
    | cons l ls ih =>
      show (match tracks.find? (isManualFor l) with
        | some t => some t
        | none =>
          match tracks.find? (isAutoFor l) with
          | some t => some t
          | none => selectBestCaptionTrack tracks ls) = none ↔ tracks = []
      cases hm : tracks.find? (isManualFor l) with
      | some t =>
        simp only [reduceCtorEq, false_iff]
        intro he
        subst he
        simp at hm
      | none =>
        cases ha : tracks.find? (isAutoFor l) with
        | some t =>
          simp only [reduceCtorEq, false_iff]
          intro he
          subst he
          simp at ha
        | none => exact ih

/-- C7 witness: a single French track with Japanese and English
preferences falls back to the head of the list. -/
theorem C7_witness :
    selectBestCaptionTrack [frManualTrack] ["ja", "en"] = [frManualTrack].head? :=
  C7_fallback_first.1 [frManualTrack] ["ja", "en"] (by decide)

/-! ## Helper lemmas for the URL scanner -/

/-- A character conflict between a literal and a list that occurs before
the list runs out, so that extending the list cannot make the literal
match. -/
def hardMismatch : List Char → List Char → Bool
  | [], _ => false
  | _ :: _, [] => false
  | l :: lit, c :: s => if c = l then hardMismatch lit s else true

theorem stripLit_append_none {lit s : List Char} (h : hardMismatch lit s = true)
    (t : List Char) : stripLit lit (s ++ t) = none := by
  induction lit generalizing s with
  | nil => simp [hardMismatch] at h
  | cons l lt ih =>
    cases s with
    | nil => simp [hardMismatch] at h
    | cons c cr =>
      rw [List.cons_append]
      unfold stripLit
      unfold hardMismatch at h
      by_cases hc : c = l
      · rw [if_pos hc] at h ⊢
        exact ih h
      · rw [if_neg hc]

/-- Every scan position inside the list has a hard mismatch with the
literal. -/
def scanBlocked (lit : List Char) : List Char → Bool
  | [] => true
  | c :: rest => hardMismatch lit (c :: rest) && scanBlocked lit rest

theorem scanFor_append_of_blocked {lit pre : List Char}
    (h : scanBlocked lit pre = true) (t : List Char) :
    scanFor lit (pre ++ t) = scanFor lit t := by
  induction pre with
  | nil => rw [List.nil_append]
  | cons c rest ih =>
    unfold scanBlocked at h
    rw [Bool.and_eq_true] at h
    rw [List.cons_append]
    show (match checkAt lit (c :: (rest ++ t)) with
      | some r => some r
      | none => scanFor lit (rest ++ t)) = scanFor lit t
    have hc : checkAt lit (c :: (rest ++ t)) = none := by
      unfold checkAt
      rw [← List.cons_append, stripLit_append_none h.1]
      rfl
    rw [hc]
    exact ih h.2

theorem stripLit_none_of_all_id {lit s : List Char}
    (hlit : ∃ c ∈ lit, isIdChar c = false) (hs : s.all isIdChar = true) :
    stripLit lit s = none := by
  induction lit generalizing s with
  | nil => simp at hlit
  | cons l lt ih =>
    cases s with
    | nil => rfl
    | cons c cr =>
      unfold stripLit
      by_cases hc : c = l
      · rw [if_pos hc]
        rw [List.all_cons, Bool.and_eq_true] at hs
        apply ih _ hs.2
        obtain ⟨w, hw, hwid⟩ := hlit
        rcases List.mem_cons.mp hw with h1 | h1
        · exfalso
          rw [h1] at hwid
          rw [hc] at hs
          rw [hs.1] at hwid
          exact Bool.true_eq_false.mp hwid
        · exact ⟨w, h1, hwid⟩
      · rw [if_neg hc]

theorem scanFor_none_of_all_id {lit s : List Char}
    (hlit : ∃ c ∈ lit, isIdChar c = false) (hs : s.all isIdChar = true) :
    scanFor lit s = none := by
  induction s with
  | nil =>
    show checkAt lit [] = none
    unfold checkAt
    rw [stripLit_none_of_all_id hlit (by rfl)]
    rfl
  | cons c cr ih =>
    show (match checkAt lit (c :: cr) with
      | some r => some r
      | none => scanFor lit cr) = none
    have hc : checkAt lit (c :: cr) = none := by
      unfold checkAt
      rw [stripLit_none_of_all_id hlit hs]
      rfl
    rw [hc]
    rw [List.all_cons, Bool.and_eq_true] at hs
    exact ih hs.2

theorem stripLit_self (lit : List Char) (t : List Char) :
    stripLit lit (lit ++ t) = some t := by
  induction lit with
  | nil => rfl
  | cons l lt ih =>
    rw [List.cons_append]
    unfold stripLit
    rw [if_pos rfl]
    exact ih

theorem checkAt_self {t : List Char} (lit : List Char) (h11 : t.length = 11)
    (hall : t.all isIdChar = true) : checkAt lit (lit ++ t) = some (String.mk t) := by
  unfold checkAt
  rw [stripLit_self]
  have htake : t.take 11 = t := List.take_of_length_le (Nat.le_of_eq h11)
  simp [htake, h11, hall]
  exact List.all_eq_true.mp hall

theorem scanFor_cons_hit {lit : List Char} {c : Char} {rest : List Char} {r : String}
    (h : checkAt lit (c :: rest) = some r) : scanFor lit (c :: rest) = some r := by
  show (match checkAt lit (c :: rest) with
    | some r => some r
    | none => scanFor lit rest) = some r
  rw [h]

theorem scanFor_self_hit {t : List Char} (l : Char) (lt : List Char)
    (h11 : t.length = 11) (hall : t.all isIdChar = true) :
    scanFor (l :: lt) ((l :: lt) ++ t) = some (String.mk t) := by
  rw [List.cons_append]
  exact scanFor_cons_hit (by rw [← List.cons_append]; exact checkAt_self _ h11 hall)

theorem mk_append_ne_empty {pre cs : List Char} (h : pre ≠ []) :
    String.mk (pre ++ cs) ≠ "" := by
  intro he
  have hd : pre ++ cs = [] := congrArg String.data he
  exact h (List.append_eq_nil.mp hd).1

theorem extractWatchShape {cs : List Char} (h11 : cs.length = 11)
    (hall : cs.all isIdChar = true) :
    extractVideoId (String.mk ("https://www.youtube.com/watch?v=".data ++ cs)) =
      some (String.mk cs) := by
  unfold extractVideoId
  rw [if_neg (mk_append_ne_empty (by decide))]
  rw [show (String.mk ("https://www.youtube.com/watch?v=".data ++ cs)).data
      = "https://www.youtube.com/watch?v=".data ++ cs from rfl]
  rw [show "https://www.youtube.com/watch?v=".data = "https://www.".data ++ watchLit from by decide,
    List.append_assoc,
    scanFor_append_of_blocked (by decide : scanBlocked watchLit "https://www.".data = true),
    show watchLit = 'y' :: "outube.com/watch?v=".data from by decide,
    scanFor_self_hit 'y' _ h11 hall]

theorem extractShortShape {cs : List Char} (h11 : cs.length = 11)
    (hall : cs.all isIdChar = true) :
    extractVideoId (String.mk ("https://youtu.be/".data ++ cs)) =
      some (String.mk cs) := by
  unfold extractVideoId
  rw [if_neg (mk_append_ne_empty (by decide))]
  rw [show (String.mk ("https://youtu.be/".data ++ cs)).data
      = "https://youtu.be/".data ++ cs from rfl]
  have hp1 : scanFor watchLit ("https://youtu.be/".data ++ cs) = none := by
    rw [scanFor_append_of_blocked (by decide : scanBlocked watchLit "https://youtu.be/".data = true)]
    exact scanFor_none_of_all_id ⟨'.', by decide, by decide⟩ hall
  rw [hp1]
  rw [show "https://youtu.be/".data = "https://".data ++ shortLit from by decide,
    List.append_assoc,
    scanFor_append_of_blocked (by decide : scanBlocked shortLit "https://".data = true),
    show shortLit = 'y' :: "outu.be/".data from by decide,
    scanFor_self_hit 'y' _ h11 hall]

theorem extractEmbedShape {cs : List Char} (h11 : cs.length = 11)
    (hall : cs.all isIdChar = true) :
    extractVideoId (String.mk ("https://www.youtube.com/embed/".data ++ cs)) =
      some (String.mk cs) := by
  unfold extractVideoId
  rw [if_neg (mk_append_ne_empty (by decide))]
  rw [show (String.mk ("https://www.youtube.com/embed/".data ++ cs)).data
      = "https://www.youtube.com/embed/".data ++ cs from rfl]
  have hp1 : scanFor watchLit ("https://www.youtube.com/embed/".data ++ cs) = none := by
    rw [scanFor_append_of_blocked
      (by decide : scanBlocked watchLit "https://www.youtube.com/embed/".data = true)]
    exact scanFor_none_of_all_id ⟨'.', by decide, by decide⟩ hall
  have hp2 : scanFor shortLit ("https://www.youtube.com/embed/".data ++ cs) = none := by
    rw [scanFor_append_of_blocked
      (by decide : scanBlocked shortLit "https://www.youtube.com/embed/".data = true)]
    exact scanFor_none_of_all_id ⟨'.', by decide, by decide⟩ hall
  rw [hp1, hp2]
  rw [show "https://www.youtube.com/embed/".data = "https://www.".data ++ embedLit from by decide,
    List.append_assoc,
    scanFor_append_of_blocked (by decide : scanBlocked embedLit "https://www.".data = true),
    show embedLit = 'y' :: "outube.com/embed/".data from by decide,
    scanFor_self_hit 'y' _ h11 hall]

theorem extractVShape {cs : List Char} (h11 : cs.length = 11)
    (hall : cs.all isIdChar = true) :
    extractVideoId (String.mk ("https://www.youtube.com/v/".data ++ cs)) =
      some (String.mk cs) := by
  unfold extractVideoId
  rw [if_neg (mk_append_ne_empty (by decide))]
  rw [show (String.mk ("https://www.youtube.com/v/".data ++ cs)).data
      = "https://www.youtube.com/v/".data ++ cs from rfl]
  have hp1 : scanFor watchLit ("https://www.youtube.com/v/".data ++ cs) = none := by
    rw [scanFor_append_of_blocked
      (by decide : scanBlocked watchLit "https://www.youtube.com/v/".data = true)]
    exact scanFor_none_of_all_id ⟨'.', by decide, by decide⟩ hall
  have hp2 : scanFor shortLit ("https://www.youtube.com/v/".data ++ cs) = none := by
    rw [scanFor_append_of_blocked
      (by decide : scanBlocked shortLit "https://www.youtube.com/v/".data = true)]
    exact scanFor_none_of_all_id ⟨'.', by decide, by decide⟩ hall
  have hp3 : scanFor embedLit ("https://www.youtube.com/v/".data ++ cs) = none := by
    rw [scanFor_append_of_blocked
      (by decide : scanBlocked embedLit "https://www.youtube.com/v/".data = true)]
    exact scanFor_none_of_all_id ⟨'.', by decide, by decide⟩ hall
  rw [hp1, hp2, hp3]
  rw [show "https://www.youtube.com/v/".data = "https://www.".data ++ vLit from by decide,
    List.append_assoc,
    scanFor_append_of_blocked (by decide : scanBlocked vLit "https://www.".data = true),
    show vLit = 'y' :: "outube.com/v/".data from by decide,
    scanFor_self_hit 'y' _ h11 hall]

/-! ## Claims about URL validation -/

/-- C4 counterexample: a URL whose host is off the allow-list but whose
path embeds a watch-shaped id.  Validation rejects it, but
extractVideoId, which never inspects the host, still returns the id, so
the parsing operation does not return null as the claim states. -/
theorem C4_counterexample :
    urlHostname "https://evil.com/youtube.com/watch?v=abcdefghijk" = some "evil.com"
    ∧ "evil.com" ∉ validHosts
    ∧ extractVideoId "https://evil.com/youtube.com/watch?v=abcdefghijk" = some "abcdefghijk"
    ∧ isValidYouTubeUrl "https://evil.com/youtube.com/watch?v=abcdefghijk" = false := by
  decide

/-- C4 (amended): for every URL whose parsed host is off the allow-list
(or that does not parse), isValidYouTubeUrl returns false — but only the
validation operation checks the host, extractVideoId does not; and for
every recognized URL shape with an allowed host and a well-formed
11-character id, extractVideoId returns exactly that id. -/
theorem C4_host_allowlist :
    (∀ (url host : String), urlHostname url = some host → host ∉ validHosts →
      isValidYouTubeUrl url = false)
    ∧ (∀ url : String, urlHostname url = none → isValidYouTubeUrl url = false)
    ∧ (∀ cs : List Char, cs.length = 11 → cs.all isIdChar = true →
      extractVideoId (String.mk ("https://www.youtube.com/watch?v=".data ++ cs)) =
          some (String.mk cs)
      ∧ extractVideoId (String.mk ("https://youtu.be/".data ++ cs)) = some (String.mk cs)
      ∧ extractVideoId (String.mk ("https://www.youtube.com/embed/".data ++ cs)) =
          some (String.mk cs)
      ∧ extractVideoId (String.mk ("https://www.youtube.com/v/".data ++ cs)) =
          some (String.mk cs)) := by
  refine ⟨?_, ?_, ?_⟩
  · intro url host h hmem
    unfold isValidYouTubeUrl
    by_cases he : url = ""
    · rw [if_pos he]
    · rw [if_neg he, h]
      have hc : validHosts.contains host = false := by simpa using hmem
      show (validHosts.contains host && (extractVideoId url).isSome) = false
      rw [hc, Bool.false_and]
  · intro url h
    unfold isValidYouTubeUrl
    by_cases he : url = ""
    · rw [if_pos he]
    · rw [if_neg he, h]
  · intro cs h11 hall
    exact ⟨extractWatchShape h11 hall, extractShortShape h11 hall,
      extractEmbedShape h11 hall, extractVShape h11 hall⟩

/-- C4 witness: the host-rejection conjunct applied to a concrete URL
with a disallowed host, and the shape conjunct applied to a concrete
id. -/
theorem C4_witness :
    isValidYouTubeUrl "https://example.com/watch?v=abcdefghijk" = false
    ∧ extractVideoId (String.mk ("https://youtu.be/".data ++ "dQw4w9WgXcQ".data)) =
        some (String.mk "dQw4w9WgXcQ".data) :=
  ⟨C4_host_allowlist.1 "https://example.com/watch?v=abcdefghijk" "example.com"
      (by decide) (by decide),
    (C4_host_allowlist.2.2 "dQw4w9WgXcQ".data (by decide) (by decide)).2.1⟩


/-! ## Helper lemmas for the pipeline claims -/

/-- The exclusivity shape every TranscriptResult of the pipeline obeys. -/
def resultShape (r : TranscriptResult) : Prop :=
  (r.success = true →
    r.transcript.isSome = true ∧ r.language.isSome = true ∧ r.error = none)
  ∧ (r.success = false →
    r.error.isSome = true ∧ r.transcript = none ∧ r.language = none)

theorem bareFailure_shape (msg : String) : resultShape (bareFailure msg) := by
  refine ⟨fun h => ?_, fun _ => ?_⟩
  · exact absurd h (by simp [bareFailure])
  · simp [bareFailure]

theorem classifyError_shape (e : JsError) : resultShape (classifyError e) := by
  unfold classifyError
  split_ifs <;> exact bareFailure_shape _

theorem resolvedBody_ok_shape (translate : String → String) (md : VideoMetadata)
    (caps : Option (List CaptionTrack)) (fetch : Except JsError (List CaptionSegment))
    (r : TranscriptResult) (h : resolvedBody translate md caps fetch = .ok r) :
    resultShape r := by
  unfold resolvedBody at h
  repeat' split at h
  all_goals try exact (Except.noConfusion h)
  all_goals injection h with h2
  all_goals subst h2
  all_goals refine ⟨fun hs => ?_, fun hs => ?_⟩
  all_goals simp_all [bareFailure]

theorem resolvedBody_ok_metadata (translate : String → String) (md : VideoMetadata)
    (caps : Option (List CaptionTrack)) (fetch : Except JsError (List CaptionSegment))
    (r : TranscriptResult) (h : resolvedBody translate md caps fetch = .ok r) :
    r.metadata = some md := by
  unfold resolvedBody at h
  repeat' split at h
  all_goals try exact (Except.noConfusion h)
  all_goals injection h with h2
  all_goals subst h2
  all_goals rfl

theorem attemptBody_ok_shape (translate : String → String) (env : AttemptEnv)
    (r : TranscriptResult) (h : attemptBody translate env = .ok r) : resultShape r := by
  cases env with
  | thrown e => exact Except.noConfusion h
  | resolved md caps fetch => exact resolvedBody_ok_shape translate md caps fetch r h

theorem runAttempts_shape (translate : String → String) :
    ∀ (envs : List AttemptEnv) (last : Option JsError),
      resultShape (runAttempts translate envs last) := by
  intro envs
  induction envs with
  | nil => intro last; exact classifyError_shape _
  | cons env rest ih =>
    intro last
    unfold runAttempts
    cases hab : attemptBody translate env with
    | ok r => exact attemptBody_ok_shape translate env r hab
    | error e => exact ih (some e)

/-- Metadata assembled by a resolved attempt, used by the concrete
pipeline scenarios. -/
def sampleMetadata : VideoMetadata :=
  { title := "Sample video"
    channelName := "Sample channel"
    description := ""
    thumbnail := "https://i.ytimg.example/hq.jpg" }

/-- A manually authored Japanese track for the concrete pipeline
scenarios. -/
def jaManualTrack : CaptionTrack :=
  { base_url := "https://captions.example/ja-manual"
    name := { text := "Japanese", rtl := false }
    vss_id := ".ja"
    language_code := "ja"
    kind := none
    is_translatable := true }

/-- An attempt in which the video resolves and the transcript fetch
succeeds. -/
def successEnv : AttemptEnv :=
  .resolved sampleMetadata (some [jaManualTrack]) (.ok [⟨"こんにちは。", 0, 1000⟩])

/-- An attempt in which the video resolves, with metadata in hand, but
the transcript fetch throws a network error. -/
def fetchFailEnv : AttemptEnv :=
  .resolved sampleMetadata (some [jaManualTrack])
    (.error { name := "Error", message := "fetch failed" })

/-! ## Claims about the pipeline results -/

/-- C8: every result of getTranscript populates transcript and language
and omits error when success is true, and populates error and omits
transcript and language when success is false. -/
theorem C8_result_exclusivity (translate : String → String) (url : String)
    (envs : Nat → AttemptEnv) :
    ((getTranscript translate url envs).success = true →
      (getTranscript translate url envs).transcript.isSome = true
      ∧ (getTranscript translate url envs).language.isSome = true
      ∧ (getTranscript translate url envs).error = none)
    ∧ ((getTranscript translate url envs).success = false →
      (getTranscript translate url envs).error.isSome = true
      ∧ (getTranscript translate url envs).transcript = none
      ∧ (getTranscript translate url envs).language = none) := by
  show resultShape (getTranscript translate url envs)
  unfold getTranscript
  by_cases h1 : jsTrim url = ""
  · rw [if_pos h1]; exact bareFailure_shape _
  · rw [if_neg h1]
    by_cases h2 : isValidYouTubeUrl url = true
    · rw [if_neg (by simp [h2])]
      cases h3 : extractVideoId url with
      | none => exact bareFailure_shape _
      | some v => exact runAttempts_shape translate _ none
    · rw [if_pos (by simp [Bool.not_eq_true] at h2 ⊢; exact h2)]
      exact bareFailure_shape _

/-- C8 witness: a concrete successful run has transcript and language
populated and no error. -/
theorem C8_witness :
    (getTranscript (fun s => s) "https://www.youtube.com/watch?v=dQw4w9WgXcQ"
        (fun _ => successEnv)).transcript.isSome = true
    ∧ (getTranscript (fun s => s) "https://www.youtube.com/watch?v=dQw4w9WgXcQ"
        (fun _ => successEnv)).language.isSome = true
    ∧ (getTranscript (fun s => s) "https://www.youtube.com/watch?v=dQw4w9WgXcQ"
        (fun _ => successEnv)).error = none :=
  (C8_result_exclusivity (fun s => s) "https://www.youtube.com/watch?v=dQw4w9WgXcQ"
    (fun _ => successEnv)).1 (by decide)

/-- C2 counterexample: a run in which every attempt resolves the video
(metadata in hand) and only the transcript fetch throws ends in the
post-retry network classification, whose result carries no metadata,
contradicting the claim that such failures return the metadata. -/
theorem C2_counterexample :
    fetchFailEnv =
      AttemptEnv.resolved sampleMetadata (some [jaManualTrack])
        (.error { name := "Error", message := "fetch failed" })
    ∧ getTranscript (fun s => s) "https://www.youtube.com/watch?v=dQw4w9WgXcQ"
        (fun _ => fetchFailEnv) = bareFailure networkMsg
    ∧ (bareFailure networkMsg).metadata = none :=
  ⟨rfl, by decide, rfl⟩

/-- C2 (amended): failure results returned from within a resolved
attempt (no captions, missing fetch URL, empty segments) carry the
metadata, but failures surfaced as thrown errors are classified after
the retry loop into results that carry no metadata, even when every
attempt had resolved the video. -/
theorem C2_metadata_on_failures :
    (∀ (translate : String → String) (md : VideoMetadata)
        (captions : Option (List CaptionTrack))
        (fetch : Except JsError (List CaptionSegment)) (r : TranscriptResult),
      resolvedBody translate md captions fetch = .ok r → r.metadata = some md)
    ∧ (∀ e : JsError, (classifyError e).metadata = none) := by
  constructor
  · intro translate md captions fetch r h
    exact resolvedBody_ok_metadata translate md captions fetch r h
  · intro e
    unfold classifyError
    split_ifs <;> rfl

/-- C2 witness: the amended statement applied to a concrete resolved
attempt with no captions. -/
theorem C2_witness :
    ({ bareFailure noCaptionsMsg with metadata := some sampleMetadata }
      : TranscriptResult).metadata = some sampleMetadata :=
  C2_metadata_on_failures.1 (fun s => s) sampleMetadata none (.ok []) _ rfl

theorem classify_ne_noVideoId (e : JsError) :
    classifyError e ≠ bareFailure noVideoIdMsg := by
  unfold classifyError
  split_ifs
  · decide
  · decide
  · decide
  · decide
  · intro h
    have h2 : ("エラーが発生しました: " ++ e.message) = noVideoIdMsg := by
      have h3 := congrArg TranscriptResult.error h
      simpa [bareFailure] using h3
    have h3 : "エラーが発生しました: ".data ++ e.message.data = noVideoIdMsg.data := by
      have h4 := congrArg String.data h2
      rwa [String.data_append] at h4
    have h4 := congrArg List.head? h3
    rw [show "エラーが発生しました: ".data = 'エ' :: "ラーが発生しました: ".data from rfl,
      List.cons_append, List.head?_cons] at h4
    exact absurd h4 (by decide)

theorem runAttempts_ne_noVideoId (translate : String → String) :
    ∀ (envs : List AttemptEnv) (last : Option JsError),
      runAttempts translate envs last ≠ bareFailure noVideoIdMsg := by
  intro envs
  induction envs with
  | nil => intro last; exact classify_ne_noVideoId _
  | cons env rest ih =>
    intro last
    unfold runAttempts
    cases hab : attemptBody translate env with
    | error e => exact ih (some e)
    | ok r =>
      show r ≠ bareFailure noVideoIdMsg
      intro h
      cases env with
      | thrown e2 => exact Except.noConfusion hab
      | resolved md caps fetch =>
        have hm := resolvedBody_ok_metadata translate md caps fetch r hab
        rw [h] at hm
        exact Option.noConfusion hm

theorem isValid_implies_some_id (url : String) (h : isValidYouTubeUrl url = true) :
    (extractVideoId url).isSome = true := by
  unfold isValidYouTubeUrl at h
  by_cases he : url = ""
  · rw [if_pos he] at h; exact Bool.noConfusion h
  · rw [if_neg he] at h
    cases hh : urlHostname url with
    | none => rw [hh] at h; exact Bool.noConfusion h
    | some host =>
      rw [hh] at h
      have h2 : (validHosts.contains host && (extractVideoId url).isSome) = true := h
      rw [Bool.and_eq_true] at h2
      exact h2.2

/-- C10: whenever isValidYouTubeUrl accepts a URL, extractVideoId
returns an identifier, so the getTranscript branch that reports a
missing video id is unreachable: no run of the pipeline returns that
error. -/
theorem C10_no_missing_id (url : String) :
    (isValidYouTubeUrl url = true → (extractVideoId url).isSome = true)
    ∧ (∀ (translate : String → String) (envs : Nat → AttemptEnv),
      getTranscript translate url envs ≠ bareFailure noVideoIdMsg) := by
  constructor
  · exact isValid_implies_some_id url
  · intro translate envs
    unfold getTranscript
    by_cases h1 : jsTrim url = ""
    · rw [if_pos h1]; decide
    · rw [if_neg h1]
      by_cases h2 : isValidYouTubeUrl url = true
      · rw [if_neg (by simp [h2])]
        cases h3 : extractVideoId url with
        | none =>
          have h4 := isValid_implies_some_id url h2
          rw [h3] at h4
          exact Bool.noConfusion h4
        | some v => exact runAttempts_ne_noVideoId translate _ none
      · rw [if_pos (by simp [Bool.not_eq_true] at h2 ⊢; exact h2)]
        decide

/-- C10 witness: a concrete accepted URL yields an identifier. -/
theorem C10_witness : (extractVideoId "https://youtu.be/dQw4w9WgXcQ").isSome = true :=
  (C10_no_missing_id "https://youtu.be/dQw4w9WgXcQ").1 (by decide)

/-! ## Claim about the session cache -/

/-- C9: a caller that finds an in-flight creation promise gets that same
promise back with the state unchanged (no second creation is started);
a failed creation clears the cached promise; and a caller that finds
neither instance nor promise starts exactly one new creation. -/
theorem C9_single_flight :
    (∀ (st : InnertubeState) (p fresh : Nat), st.inst = none → st.initP = some p →
      getInnertubeCall st fresh = (st, .awaitP p))
    ∧ (∀ st : InnertubeState, (initFail st).initP = none)
    ∧ (∀ (st : InnertubeState) (fresh : Nat), st.inst = none → st.initP = none →
      getInnertubeCall st fresh =
        ({ inst := none, initP := some fresh, createCount := st.createCount + 1 },
         .awaitP fresh)) := by
  refine ⟨?_, ?_, ?_⟩
  · intro st p fresh h1 h2
    unfold getInnertubeCall
    rw [h1, h2]
  · intro st
    rfl
  · intro st fresh h1 h2
    unfold getInnertubeCall
    rw [h1, h2]

/-- C9 witness: a second caller arriving while promise 7 is in flight
receives promise 7 and leaves the creation count at 1. -/
theorem C9_witness :
    getInnertubeCall { inst := none, initP := some 7, createCount := 1 } 9 =
      ({ inst := none, initP := some 7, createCount := 1 }, .awaitP 7) :=
  C9_single_flight.1 { inst := none, initP := some 7, createCount := 1 } 7 9 rfl rfl
